import Mathlib

/-!
Shallow embedding of the geometric and list primitives in
`src/dynamicTopoFvMesh/meshOpsI.H` (namespace `Foam::meshOps`), together
with theorems settling the specification claims about them.

Modelling conventions:
* `scalar` (C++ `double`) is modelled as `ℝ`; `label` (C++ `int`) as `ℤ`.
* `UList<point>` indexing is modelled as a total function `ℤ → Vec3`
  (indexing is only ever performed at valid labels in the source).
* A function that can reach `abort(FatalError)` returns an `Option`,
  with `none` standing for the fatal abort.
* `mag` is the Euclidean norm (`Real.sqrt` of the dot product), as in
  OpenFOAM's `mag`.
-/

open scoped Classical

namespace meshOps

/-- Vector of three real components, modelling OpenFOAM's `vector` /
`point` type. -/
structure Vec3 where
  x : ℝ
  y : ℝ
  z : ℝ

namespace Vec3

def add (a b : Vec3) : Vec3 := ⟨a.x + b.x, a.y + b.y, a.z + b.z⟩

def sub (a b : Vec3) : Vec3 := ⟨a.x - b.x, a.y - b.y, a.z - b.z⟩

def neg (a : Vec3) : Vec3 := ⟨-a.x, -a.y, -a.z⟩

def smul (s : ℝ) (a : Vec3) : Vec3 := ⟨s * a.x, s * a.y, s * a.z⟩

/-- Division of a vector by a scalar (`v / s` in OpenFOAM). -/
noncomputable def divS (a : Vec3) (s : ℝ) : Vec3 := ⟨a.x / s, a.y / s, a.z / s⟩

/-- Dot product (OpenFOAM's `&` on two vectors). -/
def dot (a b : Vec3) : ℝ := a.x * b.x + a.y * b.y + a.z * b.z

/-- Cross product (OpenFOAM's `^` on two vectors). -/
def cross (a b : Vec3) : Vec3 :=
  ⟨a.y * b.z - a.z * b.y, a.z * b.x - a.x * b.z, a.x * b.y - a.y * b.x⟩

def zero : Vec3 := ⟨0, 0, 0⟩

instance : Add Vec3 := ⟨add⟩
instance : Sub Vec3 := ⟨sub⟩
instance : Neg Vec3 := ⟨neg⟩
instance : SMul ℝ Vec3 := ⟨smul⟩
instance : Zero Vec3 := ⟨zero⟩

@[simp] theorem add_mk (a b c d e f : ℝ) :
    (Vec3.mk a b c) + (Vec3.mk d e f) = Vec3.mk (a + d) (b + e) (c + f) := rfl

@[simp] theorem sub_mk (a b c d e f : ℝ) :
    (Vec3.mk a b c) - (Vec3.mk d e f) = Vec3.mk (a - d) (b - e) (c - f) := rfl

@[simp] theorem neg_mk (a b c : ℝ) :
    -(Vec3.mk a b c) = Vec3.mk (-a) (-b) (-c) := rfl

@[simp] theorem smul_mk (s a b c : ℝ) :
    s • (Vec3.mk a b c) = Vec3.mk (s * a) (s * b) (s * c) := rfl

@[simp] theorem divS_mk (a b c s : ℝ) :
    divS (Vec3.mk a b c) s = Vec3.mk (a / s) (b / s) (c / s) := rfl

@[simp] theorem dot_mk (a b c d e f : ℝ) :
    dot (Vec3.mk a b c) (Vec3.mk d e f) = a * d + b * e + c * f := rfl

@[simp] theorem cross_mk (a b c d e f : ℝ) :
    cross (Vec3.mk a b c) (Vec3.mk d e f) =
      Vec3.mk (b * f - c * e) (c * d - a * f) (a * e - b * d) := rfl

@[simp] theorem zero_def : (0 : Vec3) = Vec3.mk 0 0 0 := rfl

@[simp] theorem mk_injEq (a b c d e f : ℝ) :
    (Vec3.mk a b c = Vec3.mk d e f) ↔ (a = d ∧ b = e ∧ c = f) := by
  constructor
  · intro h
    exact ⟨congrArg Vec3.x h, congrArg Vec3.y h, congrArg Vec3.z h⟩
  · rintro ⟨h1, h2, h3⟩
    rw [h1, h2, h3]

end Vec3

/-- Euclidean vector magnitude, OpenFOAM's `mag(vector)`. -/
noncomputable def mag (v : Vec3) : ℝ := Real.sqrt (Vec3.dot v v)

/-- OpenFOAM's `VSMALL` for double-precision scalars. -/
noncomputable def VSMALL : ℝ := 1e-300

/-- Modelled from the spec: the global geometric tolerance constant
`meshOps::matchTol_` shared across the primitives is declared in
`meshOps.H`, which is not under `src/`; the spec describes it only as a
relative tolerance scaled per call by local lengths.  Its concrete value
is immaterial to the theorems below, which rely only on its sign. -/
noncomputable def matchTol_ : ℝ := 1e-4

theorem VSMALL_pos : 0 < VSMALL := by norm_num [VSMALL]

theorem matchTol_pos : 0 < matchTol_ := by norm_num [matchTol_]

/-- A face is an ordered list of point labels (OpenFOAM `face`). -/
abbrev Face := List ℤ

/-- A cell is a list of face labels (OpenFOAM `cell`). -/
abbrev Cell := List ℤ

/-- Total list indexing, modelling `UList::operator[]` at an in-bounds
position (out-of-bounds access is undefined behaviour in the source and
is mapped to the default label `0`). -/
def getE (l : List ℤ) (i : ℕ) : ℤ := l.getD i 0

/-- Cyclic successor position in a list of length `n`, modelling
OpenFOAM's `fcIndex`. -/
def fcIdx (n i : ℕ) : ℕ := if i + 1 = n then 0 else i + 1

/-- An edge is a pair of point labels (OpenFOAM `edge`); `start` is
`e.start()` (also `e[0]`) and `endPt` is `e.end()` (also `e[1]`). -/
structure Edge where
  start : ℤ
  endPt : ℤ

/-! ### `meshOps::findIsolatedPoint` (two-face overload) and
`meshOps::tetApexPoint` -/

/-- Embeds `meshOps::findIsolatedPoint(const face&, const face&)`:
returns the first point of `checkFace` that differs from the first
three points of `baseFace`, or `-1` when there is none. -/
def findIsolatedPoint (baseFace : Face) : Face → ℤ
  | [] => -1
  | p :: rest =>
    if p ≠ getE baseFace 0 ∧ p ≠ getE baseFace 1 ∧ p ≠ getE baseFace 2 then p
    else findIsolatedPoint baseFace rest

/-- Embeds the `forAll(cellToCheck, faceI)` loop of
`meshOps::tetApexPoint`, including the original comparison
`if (foundApex > -1)` in which the C++ `bool` `foundApex` is implicitly
converted to `0` or `1` before the comparison with `-1` (so the test
succeeds on the very first iteration). -/
def tetApexLoop (baseFace : Face) (faces : ℤ → Face) :
    ℤ → Bool → List ℤ → ℤ × Bool
  | apexPoint, foundApex, [] => (apexPoint, foundApex)
  | _, foundApex, faceI :: rest =>
    let apexPoint := findIsolatedPoint baseFace (faces faceI)
    if (if foundApex then (1 : ℤ) else 0) > -1 then (apexPoint, true)
    else tetApexLoop baseFace faces apexPoint foundApex rest

/-- Embeds `meshOps::tetApexPoint`: runs the search loop and, when the
`foundApex` flag is still false afterwards, aborts with the fatal
"Could not find an apex point" error (modelled as `none`). -/
def tetApexPoint (cIndex fIndex : ℤ) (faces : ℤ → Face) (cells : ℤ → Cell) :
    Option ℤ :=
  let r := tetApexLoop (faces fIndex) faces (-1) false (cells cIndex)
  if r.2 then some r.1 else none

/-- Concrete mesh fragment on which no face of cell `0` has a point
isolated from the base face: every face is the triangle `[0, 1, 2]`. -/
def exFaces : ℤ → Face := fun _ => [0, 1, 2]

/-- Concrete cell array: cell `0` consists of the single face `0`. -/
def exCells : ℤ → Cell := fun _ => [0]

/-- C1: on a concrete input where `findIsolatedPoint` returns `-1` for
every face of the cell, `tetApexPoint` does NOT raise the fatal
"Could not find an apex point" error: because the loop-exit test
`foundApex > -1` converts the false flag to `0` and is therefore already
true on the first iteration, the function returns `-1` as if it had
succeeded. This exhibits the latent bug the spec flags: the claim
(fail loudly when no isolated point exists) is the documented intent,
and the code violates it. -/
theorem tetApexPoint_returns_minus_one_without_error :
    (∀ fI ∈ exCells 0, findIsolatedPoint (exFaces 0) (exFaces fI) = -1) ∧
    tetApexPoint 0 0 exFaces exCells = some (-1) := by
  constructor
  · intro fI hfI
    simp only [exCells, List.mem_singleton] at hfI
    subst hfI
    rfl
  · rfl

/-! ### `meshOps::replaceLabel` -/

/-- Embeds `meshOps::replaceLabel`: scans the list, replaces the first
occurrence of `original` by `replacement` and stops; when `original`
does not occur, the source aborts with a fatal error (`none`). -/
def replaceLabel (original replacement : ℤ) : List ℤ → Option (List ℤ)
  | [] => none
  | x :: rest =>
    if x = original then some (replacement :: rest)
    else (replaceLabel original replacement rest).map (x :: ·)

theorem replaceLabel_not_mem {original replacement : ℤ} :
    ∀ {list : List ℤ}, original ∉ list →
      replaceLabel original replacement list = none := by
  intro list h
  induction list with
  | nil => rfl
  | cons x rest ih =>
    rw [List.mem_cons, not_or] at h
    rw [replaceLabel, if_neg (fun hx => h.1 hx.symm), ih h.2]
    rfl

theorem replaceLabel_first {original replacement : ℤ} :
    ∀ (l₁ l₂ : List ℤ), original ∉ l₁ →
      replaceLabel original replacement (l₁ ++ original :: l₂) =
        some (l₁ ++ replacement :: l₂) := by
  intro l₁ l₂ h
  induction l₁ with
  | nil => simp [replaceLabel]
  | cons x rest ih =>
    rw [List.mem_cons, not_or] at h
    rw [List.cons_append, replaceLabel, if_neg (fun hx => h.1 hx.symm),
      ih h.2]
    rfl

/-- C8: `replaceLabel` replaces exactly the first occurrence of
`original` (every element before it, and every element after it —
including later occurrences of `original` — is unchanged), and returns
the fatal-error outcome `none` when `original` does not occur. -/
theorem replaceLabel_first_occurrence (original replacement : ℤ)
    (list : List ℤ) :
    (original ∉ list → replaceLabel original replacement list = none) ∧
    (∀ l₁ l₂ : List ℤ, list = l₁ ++ original :: l₂ → original ∉ l₁ →
      replaceLabel original replacement list = some (l₁ ++ replacement :: l₂)) := by
  refine ⟨fun h => replaceLabel_not_mem h, ?_⟩
  intro l₁ l₂ hlist h₁
  rw [hlist]
  exact replaceLabel_first l₁ l₂ h₁

/-- C8 witness: concrete runs of `replaceLabel` obtained from the claim
theorem — the first `5` in `[1, 5, 7, 5]` is replaced, the later `5` is
kept, and a list without the label gives the fatal outcome. -/
theorem replaceLabel_first_occurrence_witness :
    replaceLabel 5 9 [1, 5, 7, 5] = some [1, 9, 7, 5] ∧
    replaceLabel 5 9 [1, 2] = none := by
  constructor
  · exact (replaceLabel_first_occurrence 5 9 [1, 5, 7, 5]).2 [1] [7, 5]
      (by decide) (by decide)
  · exact (replaceLabel_first_occurrence 5 9 [1, 2]).1 (by decide)

/-! ### `meshOps::insertLabel` -/

/-- Decides whether positions `i` and its cyclic successor in `list`
hold `labelA` and `labelB` in either order — the match condition of the
linear search in `meshOps::insertLabel`. -/
def adjHit (list : List ℤ) (labelA labelB : ℤ) (i : ℕ) : Bool :=
  decide ((getE list i = labelA ∧ getE list (fcIdx list.length i) = labelB) ∨
    (getE list i = labelB ∧ getE list (fcIdx list.length i) = labelA))

/-- Embeds the `forAll(list, itemI)` loop of `meshOps::insertLabel`:
walks the positions `idxs`, copying each element, and after the first
adjacent `{labelA, labelB}` pair (with the `found` flag still false)
also emits `newLabel`. -/
def insertLabelLoop (newLabel labelA labelB : ℤ) (list : List ℤ) :
    Bool → List ℕ → List ℤ × Bool
  | found, [] => ([], found)
  | found, itemI :: rest =>
    if adjHit list labelA labelB itemI = true ∧ found = false then
      let r := insertLabelLoop newLabel labelA labelB list true rest
      (getE list itemI :: newLabel :: r.1, r.2)
    else
      let r := insertLabelLoop newLabel labelA labelB list found rest
      (getE list itemI :: r.1, r.2)

/-- Embeds `meshOps::insertLabel`: runs the search-and-copy loop over
all positions; when no adjacent `{labelA, labelB}` pair was found the
source aborts with a fatal error (`none`). -/
def insertLabel (newLabel labelA labelB : ℤ) (list : List ℤ) :
    Option (List ℤ) :=
  let r := insertLabelLoop newLabel labelA labelB list false
    (List.range list.length)
  if r.2 = true then some r.1 else none

theorem insertLabelLoop_found {newLabel labelA labelB : ℤ} {list : List ℤ} :
    ∀ idxs : List ℕ,
      insertLabelLoop newLabel labelA labelB list true idxs =
        (idxs.map (getE list), true) := by
  intro idxs
  induction idxs with
  | nil => rfl
  | cons i rest ih =>
    rw [insertLabelLoop, if_neg (by simp), ih]
    rfl

theorem insertLabelLoop_no_hit {newLabel labelA labelB : ℤ} {list : List ℤ} :
    ∀ idxs : List ℕ, (∀ i ∈ idxs, adjHit list labelA labelB i = false) →
      insertLabelLoop newLabel labelA labelB list false idxs =
        (idxs.map (getE list), false) := by
  intro idxs h
  induction idxs with
  | nil => rfl
  | cons i rest ih =>
    have hi : adjHit list labelA labelB i = false := h i (by simp)
    rw [insertLabelLoop, if_neg (by simp [hi]),
      ih (fun j hj => h j (List.mem_cons_of_mem _ hj))]
    rfl

theorem insertLabelLoop_first_hit {newLabel labelA labelB : ℤ}
    {list : List ℤ} :
    ∀ (pre : List ℕ) (k : ℕ) (post : List ℕ),
      (∀ i ∈ pre, adjHit list labelA labelB i = false) →
      adjHit list labelA labelB k = true →
      insertLabelLoop newLabel labelA labelB list false (pre ++ k :: post) =
        (pre.map (getE list) ++
          getE list k :: newLabel :: post.map (getE list), true) := by
  intro pre k post hpre hk
  induction pre with
  | nil =>
    rw [List.nil_append, insertLabelLoop, if_pos ⟨hk, rfl⟩,
      insertLabelLoop_found]
    rfl
  | cons i rest ih =>
    have hi : adjHit list labelA labelB i = false := hpre i (by simp)
    rw [List.cons_append, insertLabelLoop, if_neg (by simp [hi]),
      ih (fun j hj => hpre j (List.mem_cons_of_mem _ hj))]
    rfl

/-- Mapping `getE` over an initial segment of positions recovers
`List.take`. -/
theorem map_getE_range (list : List ℤ) :
    ∀ k : ℕ, k ≤ list.length →
      (List.range k).map (getE list) = list.take k := by
  intro k
  induction k with
  | zero => intro _; rfl
  | succ k ih =>
    intro hk
    have hklt : k < list.length := Nat.lt_of_succ_le hk
    rw [List.range_succ, List.map_append, ih (Nat.le_of_lt hklt),
      List.take_succ]
    have : list[k]? = some (getE list k) := by
      rw [List.getElem?_eq_getElem hklt]
      simp [getE, List.getD, List.getElem?_eq_getElem hklt]
    rw [this]
    rfl

/-- Mapping `getE` over a tail segment of positions recovers
`List.drop`. -/
theorem map_getE_range' (list : List ℤ) :
    ∀ (m s : ℕ), s + m = list.length →
      (List.range' s m).map (getE list) = list.drop s := by
  intro m
  induction m with
  | zero =>
    intro s hs
    rw [Nat.add_zero] at hs
    rw [hs, List.drop_length]
    rfl
  | succ m ih =>
    intro s hs
    have hslt : s < list.length := by omega
    rw [List.range'_succ, List.map_cons,
      ih (s + 1) (by omega), List.drop_eq_getElem_cons hslt]
    congr 1
    simp [getE, List.getD, List.getElem?_eq_getElem hslt]

/-- Splitting the position range at the first hit index. -/
theorem range_split_at (k n : ℕ) (h : k < n) :
    List.range n = List.range k ++ k :: List.range' (k + 1) (n - k - 1) := by
  have h1 : List.range' 0 k 1 ++ List.range' (0 + 1 * k) (n - k) 1 =
      List.range' 0 (n - k + k) 1 := List.range'_append 0 k (n - k) 1
  rw [List.range_eq_range']
  have h2 : n - k + k = n := by omega
  rw [h2] at h1
  rw [← h1]
  have h3 : n - k = (n - k - 1) + 1 := by omega
  rw [h3, List.range'_succ]
  simp [List.range_eq_range']

/-- Core characterization of `insertLabel` at the first matching
position `k`: the result is the original list with `newLabel` placed
immediately after position `k`. -/
theorem insertLabel_at_first_hit {newLabel labelA labelB : ℤ}
    {list : List ℤ} {k : ℕ} (hk : k < list.length)
    (hhit : adjHit list labelA labelB k = true)
    (hmin : ∀ j, j < k → adjHit list labelA labelB j = false) :
    insertLabel newLabel labelA labelB list =
      some (list.take (k + 1) ++ newLabel :: list.drop (k + 1)) := by
  rw [insertLabel, range_split_at k list.length hk,
    insertLabelLoop_first_hit (List.range k) k
      (List.range' (k + 1) (list.length - k - 1))
      (fun i hi => hmin i (List.mem_range.mp hi)) hhit]
  rw [if_pos rfl]
  rw [map_getE_range list k (Nat.le_of_lt hk),
    map_getE_range' list (list.length - k - 1) (k + 1) (by omega)]
  congr 1
  rw [List.take_succ]
  have : list[k]? = some (getE list k) := by
    rw [List.getElem?_eq_getElem hk]
    simp [getE, List.getD, List.getElem?_eq_getElem hk]
  rw [this]
  simp

/-- Characterization of `insertLabel` when no cyclically adjacent
`{labelA, labelB}` pair exists: the fatal-error outcome. -/
theorem insertLabel_no_hit {newLabel labelA labelB : ℤ} {list : List ℤ}
    (h : ∀ j, j < list.length → adjHit list labelA labelB j = false) :
    insertLabel newLabel labelA labelB list = none := by
  rw [insertLabel, insertLabelLoop_no_hit (List.range list.length)
    (fun i hi => h i (List.mem_range.mp hi))]
  rfl

/-! ### Face geometry: `faceCentre`, `faceNormal` and the underlying
OpenFOAM polygon formulas -/

/-- Modelled from OpenFOAM's `triangle::normal` (`triPointRef(...).normal()`):
half the cross product of two edge vectors. -/
noncomputable def triNormal (a b c : Vec3) : Vec3 :=
  ((1 : ℝ) / 2) • Vec3.cross (b - a) (c - a)

/-- Sum of a list of vectors. -/
def sumVec (l : List Vec3) : Vec3 := l.foldl (· + ·) 0

/-- Modelled from OpenFOAM's `face::normal`: a triangle is handled
directly; a general polygon is fanned around the average point and the
triangle normals are summed. -/
noncomputable def polyNormal (ps : List Vec3) : Vec3 :=
  if ps.length = 3 then
    triNormal (ps.getD 0 0) (ps.getD 1 0) (ps.getD 2 0)
  else
    let n := ps.length
    let centrePoint := Vec3.divS (sumVec ps) n
    sumVec ((List.range n).map (fun pI =>
      triNormal (ps.getD pI 0) (ps.getD ((pI + 1) % n) 0) centrePoint))

/-- Modelled from OpenFOAM's `face::centre`: a triangle is averaged
directly; a general polygon is fanned around the average point and the
triangle centres are averaged with triangle-area weights (falling back
to the average point for a degenerate polygon). -/
noncomputable def polyCentre (ps : List Vec3) : Vec3 :=
  if ps.length = 3 then
    Vec3.divS (ps.getD 0 0 + ps.getD 1 0 + ps.getD 2 0) 3
  else
    let n := ps.length
    let centrePoint := Vec3.divS (sumVec ps) n
    let ta := fun pI : ℕ =>
      mag (Vec3.cross (ps.getD pI 0 - centrePoint)
        (ps.getD ((pI + 1) % n) 0 - centrePoint))
    let ttc := fun pI : ℕ =>
      ps.getD pI 0 + ps.getD ((pI + 1) % n) 0 + centrePoint
    let sumA := ((List.range n).map ta).sum
    let sumAc := sumVec ((List.range n).map (fun pI => (ta pI) • (ttc pI)))
    if sumA > VSMALL then Vec3.divS sumAc (3 * sumA) else centrePoint

/-- Embeds `meshOps::faceCentre`: gathers the face's points into a local
list (the `localFace`/`localPoints` construction) and applies the
polygon-centre formula. -/
noncomputable def faceCentre (faceToCheck : Face) (points : ℤ → Vec3) : Vec3 :=
  polyCentre (faceToCheck.map points)

/-- Embeds `meshOps::faceNormal`: gathers the face's points into a local
list and applies the polygon-normal formula. -/
noncomputable def faceNormal (faceToCheck : Face) (points : ℤ → Vec3) : Vec3 :=
  polyNormal (faceToCheck.map points)

/-! ### `meshOps::pointInFace` -/

/-- Unit face normal used by `meshOps::pointInFace`
(`nf /= mag(nf) + VSMALL`). -/
noncomputable def pifNf (faceToCheck : Face) (points : ℤ → Vec3) : Vec3 :=
  Vec3.divS (faceNormal faceToCheck points)
    (mag (faceNormal faceToCheck points) + VSMALL)

/-- Triangle normal of (edge-start, edge-end, query point) for edge
position `pI` of the face, as formed inside `meshOps::pointInFace`. -/
noncomputable def pifTn (faceToCheck : Face) (points : ℤ → Vec3)
    (checkPoint : Vec3) (pI : ℕ) : Vec3 :=
  triNormal (points (getE faceToCheck pI))
    (points (getE faceToCheck (fcIdx faceToCheck.length pI))) checkPoint

/-- Embeds the `forAll(faceToCheck, pI)` loop of `meshOps::pointInFace`:
returns `false` as soon as one edge triangle has negative area component
along `nf`. -/
noncomputable def pointInFaceLoop (faceToCheck : Face) (points : ℤ → Vec3)
    (checkPoint : Vec3) (nf : Vec3) : List ℕ → Bool
  | [] => true
  | pI :: rest =>
    if Vec3.dot (pifTn faceToCheck points checkPoint pI) nf < 0 then false
    else pointInFaceLoop faceToCheck points checkPoint nf rest

/-- Embeds `meshOps::pointInFace`. -/
noncomputable def pointInFace (faceToCheck : Face) (points : ℤ → Vec3)
    (checkPoint : Vec3) : Bool :=
  pointInFaceLoop faceToCheck points checkPoint (pifNf faceToCheck points)
    (List.range faceToCheck.length)

theorem pointInFaceLoop_iff (faceToCheck : Face) (points : ℤ → Vec3)
    (checkPoint : Vec3) (nf : Vec3) :
    ∀ idxs : List ℕ,
      pointInFaceLoop faceToCheck points checkPoint nf idxs = true ↔
        ∀ pI ∈ idxs,
          0 ≤ Vec3.dot (pifTn faceToCheck points checkPoint pI) nf := by
  intro idxs
  induction idxs with
  | nil => simp [pointInFaceLoop]
  | cons i rest ih =>
    rw [pointInFaceLoop]
    by_cases h : Vec3.dot (pifTn faceToCheck points checkPoint i) nf < 0
    · rw [if_pos h]
      simp only [Bool.false_eq_true, false_iff]
      intro hall
      exact absurd (hall i (by simp)) (not_le.mpr h)
    · rw [if_neg h, ih]
      constructor
      · intro hall pI hpI
        rcases List.mem_cons.mp hpI with h1 | h2
        · rw [h1]; exact not_lt.mp h
        · exact hall pI h2
      · intro hall pI hpI
        exact hall pI (List.mem_cons_of_mem _ hpI)

/-- C3: `pointInFace` returns true if and only if, for every face edge,
the triangle (edge-start, edge-end, query point) has a non-negative
normal component along the (unit) face normal; the comparison being
non-strict, a degenerate zero-area edge triangle (component exactly `0`)
never causes rejection. -/
theorem pointInFace_iff_all_edges_nonneg (faceToCheck : Face)
    (points : ℤ → Vec3) (checkPoint : Vec3) :
    pointInFace faceToCheck points checkPoint = true ↔
      ∀ pI, pI < faceToCheck.length →
        0 ≤ Vec3.dot (pifTn faceToCheck points checkPoint pI)
          (pifNf faceToCheck points) := by
  rw [pointInFace, pointInFaceLoop_iff]
  constructor
  · intro h pI hpI
    exact h pI (List.mem_range.mpr hpI)
  · intro h pI hpI
    exact h pI (List.mem_range.mp hpI)

/-! ### `meshOps::pointInCell` -/

/-- The per-face consistency test inside the `forAll(cellToCheck, faceI)`
loop of `meshOps::pointInCell`: the face passes when the sign of
`(faceCentre - checkPoint) . faceNormal` matches the cell's
owner/neighbour relation to the face (strictly positive requires the
cell to be the owner; non-positive requires it not to be). -/
noncomputable def faceTest (cIndex fLabel : ℤ) (faces : ℤ → Face)
    (owner : ℤ → ℤ) (points : ℤ → Vec3) (checkPoint : Vec3) : Bool :=
  let xf := faceCentre (faces fLabel) points
  let nf := faceNormal (faces fLabel) points
  let faceToPoint := xf - checkPoint
  if 0 < Vec3.dot faceToPoint nf then decide (owner fLabel = cIndex)
  else decide (owner fLabel ≠ cIndex)

/-- Embeds the face loop of `meshOps::pointInCell`, returning `false`
at the first inconsistent face. -/
noncomputable def pointInCellLoop (cIndex : ℤ) (faces : ℤ → Face)
    (owner : ℤ → ℤ) (points : ℤ → Vec3) (checkPoint : Vec3) :
    List ℤ → Bool
  | [] => true
  | fLabel :: rest =>
    if faceTest cIndex fLabel faces owner points checkPoint = true then
      pointInCellLoop cIndex faces owner points checkPoint rest
    else false

/-- Embeds `meshOps::pointInCell`. -/
noncomputable def pointInCell (cIndex : ℤ) (cellToCheck : Cell)
    (faces : ℤ → Face) (owner : ℤ → ℤ) (points : ℤ → Vec3)
    (checkPoint : Vec3) : Bool :=
  pointInCellLoop cIndex faces owner points checkPoint cellToCheck

theorem pointInCellLoop_false_of_mem {cIndex : ℤ} {faces : ℤ → Face}
    {owner : ℤ → ℤ} {points : ℤ → Vec3} {checkPoint : Vec3} {fLabel : ℤ} :
    ∀ {l : List ℤ}, fLabel ∈ l →
      faceTest cIndex fLabel faces owner points checkPoint = false →
      pointInCellLoop cIndex faces owner points checkPoint l = false := by
  intro l hmem hfail
  induction l with
  | nil => exact absurd hmem (List.not_mem_nil _)
  | cons g rest ih =>
    rw [pointInCellLoop]
    rcases List.mem_cons.mp hmem with h1 | h2
    · rw [h1] at hfail
      rw [if_neg (by simp [hfail])]
    · by_cases hg : faceTest cIndex g faces owner points checkPoint = true
      · rw [if_pos hg]
        exact ih h2
      · rw [if_neg hg]

/-- C9: exact-boundary points are classified asymmetrically by
`pointInCell`: when a face of the cell satisfies
`(faceCentre - checkPoint) . faceNormal = 0` exactly, the zero falls
into the non-positive branch, so that face forces `pointInCell` to
return `false` when the cell is the face's recorded owner, while it
passes the per-face test (does not by itself cause rejection) when the
cell is the face's neighbour. -/
theorem pointInCell_zero_dot_asymmetry (cIndex : ℤ) (cellToCheck : Cell)
    (faces : ℤ → Face) (owner : ℤ → ℤ) (points : ℤ → Vec3)
    (checkPoint : Vec3) (fLabel : ℤ) (hmem : fLabel ∈ cellToCheck)
    (hzero : Vec3.dot (faceCentre (faces fLabel) points - checkPoint)
      (faceNormal (faces fLabel) points) = 0) :
    (owner fLabel = cIndex →
      pointInCell cIndex cellToCheck faces owner points checkPoint = false) ∧
    (owner fLabel ≠ cIndex →
      faceTest cIndex fLabel faces owner points checkPoint = true) := by
  have hnotpos : ¬ (0 < Vec3.dot
      (faceCentre (faces fLabel) points - checkPoint)
      (faceNormal (faces fLabel) points)) := by
    rw [hzero]
    exact lt_irrefl 0
  constructor
  · intro hown
    have hfail : faceTest cIndex fLabel faces owner points checkPoint = false := by
      rw [faceTest]
      simp only [if_neg hnotpos]
      simp [hown]
    exact pointInCellLoop_false_of_mem hmem hfail
  · intro hown
    rw [faceTest]
    simp only [if_neg hnotpos]
    simp [hown]

/-! ### `meshOps::whichSide` -/

/-- Embeds the point loop of `meshOps::whichSide`, carrying the
positive / negative counters and returning `0` as soon as both are
non-zero; after the loop the result is `1` when `nP` is non-zero and
`-1` otherwise. -/
noncomputable def whichSideLoop (points : ℤ → Vec3) (dir p : Vec3) :
    ℕ → ℕ → List ℤ → ℤ
  | nP, _, [] => if nP ≠ 0 then 1 else -1
  | nP, nN, pointI :: rest =>
    let t := Vec3.dot dir (points pointI - p)
    let counts : ℕ × ℕ :=
      if 0 < t then (nP + 1, nN)
      else if t < 0 then (nP, nN + 1)
      else (nP, nN)
    if counts.1 ≠ 0 ∧ counts.2 ≠ 0 then 0
    else whichSideLoop points dir p counts.1 counts.2 rest

/-- Embeds `meshOps::whichSide`. -/
noncomputable def whichSide (cellPoints : List ℤ) (points : ℤ → Vec3)
    (dir p : Vec3) : ℤ :=
  whichSideLoop points dir p 0 0 cellPoints

theorem whichSideLoop_all_zero {points : ℤ → Vec3} {dir p : Vec3} :
    ∀ cps : List ℤ, (∀ pt ∈ cps, Vec3.dot dir (points pt - p) = 0) →
      whichSideLoop points dir p 0 0 cps = -1 := by
  intro cps h
  induction cps with
  | nil => rfl
  | cons c rest ih =>
    have hc : Vec3.dot dir (points c - p) = 0 := h c (by simp)
    rw [whichSideLoop]
    simp only [hc, lt_irrefl, if_neg (lt_irrefl (0 : ℝ))]
    rw [if_neg (by simp)]
    exact ih (fun pt hpt => h pt (List.mem_cons_of_mem _ hpt))

/-- C10: when every listed point lies exactly on the plane through `p`
with direction `dir` (all dot products exactly zero) — including the
vacuous case of an empty point list — both counters stay zero, so
`whichSide` classifies the cell as entirely on the negative side
(`-1`), not as straddling (`0`). -/
theorem whichSide_all_on_plane (cellPoints : List ℤ) (points : ℤ → Vec3)
    (dir p : Vec3)
    (h : ∀ pt ∈ cellPoints, Vec3.dot dir (points pt - p) = 0) :
    whichSide cellPoints points dir p = -1 :=
  whichSideLoop_all_zero cellPoints h

/-- C10 witness: the empty point list (and, for good measure, a point
exactly on the plane) is classified as `-1` by `whichSide`. -/
theorem whichSide_all_on_plane_witness :
    whichSide [] (fun _ => 0) (Vec3.mk 1 0 0) 0 = -1 ∧
    whichSide [0] (fun _ => Vec3.mk 0 1 0) (Vec3.mk 1 0 0) 0 = -1 := by
  constructor
  · exact whichSide_all_on_plane [] (fun _ => 0) (Vec3.mk 1 0 0) 0
      (by intro pt hpt; exact absurd hpt (List.not_mem_nil _))
  · refine whichSide_all_on_plane [0] (fun _ => Vec3.mk 0 1 0)
      (Vec3.mk 1 0 0) 0 ?_
    intro pt _
    simp

/-! ### `meshOps::segmentSegmentIntersection` -/

/-- Direction vector `u` of the `from` segment. -/
noncomputable def ssU (fromSegment : Edge) (fromPoints : ℤ → Vec3) : Vec3 :=
  fromPoints fromSegment.endPt - fromPoints fromSegment.start

/-- Direction vector `v` of the `to` segment. -/
noncomputable def ssV (toSegment : Edge) (toPoints : ℤ → Vec3) : Vec3 :=
  toPoints toSegment.endPt - toPoints toSegment.start

/-- Offset `w = p - q` between the two segment start points. -/
noncomputable def ssW (fromSegment toSegment : Edge)
    (fromPoints toPoints : ℤ → Vec3) : Vec3 :=
  fromPoints fromSegment.start - toPoints toSegment.start

/-- Determinant `denom = (u . u)(v . v) - (u . v)^2` of the closest-point
linear system. -/
noncomputable def ssDenom (fromSegment toSegment : Edge)
    (fromPoints toPoints : ℤ → Vec3) : ℝ :=
  Vec3.dot (ssU fromSegment fromPoints) (ssU fromSegment fromPoints) *
    Vec3.dot (ssV toSegment toPoints) (ssV toSegment toPoints) -
  Vec3.dot (ssU fromSegment fromPoints) (ssV toSegment toPoints) *
    Vec3.dot (ssU fromSegment fromPoints) (ssV toSegment toPoints)

/-- Intersection parameter `s = (b e - c d) / denom` on the `from`
segment. -/
noncomputable def ssS (fromSegment toSegment : Edge)
    (fromPoints toPoints : ℤ → Vec3) : ℝ :=
  (Vec3.dot (ssU fromSegment fromPoints) (ssV toSegment toPoints) *
      Vec3.dot (ssV toSegment toPoints) (ssW fromSegment toSegment fromPoints toPoints) -
    Vec3.dot (ssV toSegment toPoints) (ssV toSegment toPoints) *
      Vec3.dot (ssU fromSegment fromPoints) (ssW fromSegment toSegment fromPoints toPoints)) /
  ssDenom fromSegment toSegment fromPoints toPoints

/-- Intersection parameter `t = (a e - b d) / denom` on the `to`
segment. -/
noncomputable def ssT (fromSegment toSegment : Edge)
    (fromPoints toPoints : ℤ → Vec3) : ℝ :=
  (Vec3.dot (ssU fromSegment fromPoints) (ssU fromSegment fromPoints) *
      Vec3.dot (ssV toSegment toPoints) (ssW fromSegment toSegment fromPoints toPoints) -
    Vec3.dot (ssU fromSegment fromPoints) (ssV toSegment toPoints) *
      Vec3.dot (ssU fromSegment fromPoints) (ssW fromSegment toSegment fromPoints toPoints)) /
  ssDenom fromSegment toSegment fromPoints toPoints

/-- Closest-approach distance `mag(w + s u - t v)` between the two
lines at the computed parameters. -/
noncomputable def ssDist (fromSegment toSegment : Edge)
    (fromPoints toPoints : ℤ → Vec3) : ℝ :=
  mag (ssW fromSegment toSegment fromPoints toPoints +
    ssS fromSegment toSegment fromPoints toPoints • ssU fromSegment fromPoints -
    ssT fromSegment toSegment fromPoints toPoints • ssV toSegment toPoints)

/-- Edge-length-scaled proximity tolerance
`matchTol_ * min(mag u, mag v)`. -/
noncomputable def ssTol (fromSegment toSegment : Edge)
    (fromPoints toPoints : ℤ → Vec3) : ℝ :=
  matchTol_ * min (mag (ssU fromSegment fromPoints)) (mag (ssV toSegment toPoints))

/-- Embeds `meshOps::segmentSegmentIntersection`: parallel/collinear
check on the determinant, out-of-bounds check on the parameters,
length-scaled proximity check on the closest-approach distance, and on
success the intersection point `p + s u` (`false` is modelled as `none`
and `true` with the written-back `intPoint` as `some intPoint`). -/
noncomputable def segmentSegmentIntersection (fromSegment toSegment : Edge)
    (fromPoints toPoints : ℤ → Vec3) : Option Vec3 :=
  if |ssDenom fromSegment toSegment fromPoints toPoints| < VSMALL then none
  else if ssS fromSegment toSegment fromPoints toPoints < 0 ∨
      ssT fromSegment toSegment fromPoints toPoints < 0 ∨
      ssS fromSegment toSegment fromPoints toPoints > 1 ∨
      ssT fromSegment toSegment fromPoints toPoints > 1 then none
  else if ssDist fromSegment toSegment fromPoints toPoints >
      ssTol fromSegment toSegment fromPoints toPoints then none
  else some (fromPoints fromSegment.start +
    ssS fromSegment toSegment fromPoints toPoints • ssU fromSegment fromPoints)

/-- C2: `segmentSegmentIntersection` fails exactly when the
closest-point system is near-singular (`|denom| < VSMALL`), or a
computed parameter falls outside `[0, 1]` on either segment, or the
closest-approach distance exceeds the tolerance
`matchTol_ * min(mag u, mag v)` that scales with the edge lengths
involved; otherwise it succeeds and the intersection point is
`p + s u`. -/
theorem segmentSegmentIntersection_characterization
    (fromSegment toSegment : Edge) (fromPoints toPoints : ℤ → Vec3) :
    (segmentSegmentIntersection fromSegment toSegment fromPoints toPoints = none ↔
      (|ssDenom fromSegment toSegment fromPoints toPoints| < VSMALL ∨
        ssS fromSegment toSegment fromPoints toPoints < 0 ∨
        ssT fromSegment toSegment fromPoints toPoints < 0 ∨
        ssS fromSegment toSegment fromPoints toPoints > 1 ∨
        ssT fromSegment toSegment fromPoints toPoints > 1 ∨
        ssDist fromSegment toSegment fromPoints toPoints >
          ssTol fromSegment toSegment fromPoints toPoints)) ∧
    (segmentSegmentIntersection fromSegment toSegment fromPoints toPoints =
        some (fromPoints fromSegment.start +
          ssS fromSegment toSegment fromPoints toPoints • ssU fromSegment fromPoints) ↔
      ¬(|ssDenom fromSegment toSegment fromPoints toPoints| < VSMALL ∨
        ssS fromSegment toSegment fromPoints toPoints < 0 ∨
        ssT fromSegment toSegment fromPoints toPoints < 0 ∨
        ssS fromSegment toSegment fromPoints toPoints > 1 ∨
        ssT fromSegment toSegment fromPoints toPoints > 1 ∨
        ssDist fromSegment toSegment fromPoints toPoints >
          ssTol fromSegment toSegment fromPoints toPoints)) := by
  rw [segmentSegmentIntersection]
  split_ifs with h1 h2 h3
  · have hD : |ssDenom fromSegment toSegment fromPoints toPoints| < VSMALL ∨
        ssS fromSegment toSegment fromPoints toPoints < 0 ∨
        ssT fromSegment toSegment fromPoints toPoints < 0 ∨
        ssS fromSegment toSegment fromPoints toPoints > 1 ∨
        ssT fromSegment toSegment fromPoints toPoints > 1 ∨
        ssDist fromSegment toSegment fromPoints toPoints >
          ssTol fromSegment toSegment fromPoints toPoints := Or.inl h1
    exact ⟨iff_of_true rfl hD, iff_of_false (by simp) (not_not_intro hD)⟩
  · have hD : |ssDenom fromSegment toSegment fromPoints toPoints| < VSMALL ∨
        ssS fromSegment toSegment fromPoints toPoints < 0 ∨
        ssT fromSegment toSegment fromPoints toPoints < 0 ∨
        ssS fromSegment toSegment fromPoints toPoints > 1 ∨
        ssT fromSegment toSegment fromPoints toPoints > 1 ∨
        ssDist fromSegment toSegment fromPoints toPoints >
          ssTol fromSegment toSegment fromPoints toPoints := by tauto
    exact ⟨iff_of_true rfl hD, iff_of_false (by simp) (not_not_intro hD)⟩
  · have hD : |ssDenom fromSegment toSegment fromPoints toPoints| < VSMALL ∨
        ssS fromSegment toSegment fromPoints toPoints < 0 ∨
        ssT fromSegment toSegment fromPoints toPoints < 0 ∨
        ssS fromSegment toSegment fromPoints toPoints > 1 ∨
        ssT fromSegment toSegment fromPoints toPoints > 1 ∨
        ssDist fromSegment toSegment fromPoints toPoints >
          ssTol fromSegment toSegment fromPoints toPoints := by tauto
    exact ⟨iff_of_true rfl hD, iff_of_false (by simp) (not_not_intro hD)⟩
  · have hnD : ¬(|ssDenom fromSegment toSegment fromPoints toPoints| < VSMALL ∨
        ssS fromSegment toSegment fromPoints toPoints < 0 ∨
        ssT fromSegment toSegment fromPoints toPoints < 0 ∨
        ssS fromSegment toSegment fromPoints toPoints > 1 ∨
        ssT fromSegment toSegment fromPoints toPoints > 1 ∨
        ssDist fromSegment toSegment fromPoints toPoints >
          ssTol fromSegment toSegment fromPoints toPoints) := by tauto
    exact ⟨iff_of_false (by simp) hnD, iff_of_true rfl hnD⟩

/-- Points of a crossing segment pair: `(0,0,0)-(2,0,0)` crossed by
`(1,-1,0)-(1,1,0)`. -/
noncomputable def crossPts : ℤ → Vec3 :=
  fun i =>
    if i = 0 then Vec3.mk 0 0 0
    else if i = 1 then Vec3.mk 2 0 0
    else if i = 2 then Vec3.mk 1 (-1) 0
    else Vec3.mk 1 1 0

/-- Sanity check of the embedding on a successful intersection: two
crossing segments meet at `(1,0,0)`. -/
theorem segmentSegment_crossing_example :
    segmentSegmentIntersection (Edge.mk 0 1) (Edge.mk 2 3) crossPts crossPts =
      some (Vec3.mk 1 0 0) := by
  have hden : ssDenom (Edge.mk 0 1) (Edge.mk 2 3) crossPts crossPts = 16 := by
    norm_num [ssDenom, ssU, ssV, crossPts]
  have hs : ssS (Edge.mk 0 1) (Edge.mk 2 3) crossPts crossPts = 1 / 2 := by
    rw [ssS, hden]
    norm_num [ssU, ssV, ssW, crossPts]
  have ht : ssT (Edge.mk 0 1) (Edge.mk 2 3) crossPts crossPts = 1 / 2 := by
    rw [ssT, hden]
    norm_num [ssU, ssV, ssW, crossPts]
  have hdist : ssDist (Edge.mk 0 1) (Edge.mk 2 3) crossPts crossPts = 0 := by
    rw [ssDist, hs, ht]
    have hz : ssW (Edge.mk 0 1) (Edge.mk 2 3) crossPts crossPts +
        (1 / 2 : ℝ) • ssU (Edge.mk 0 1) crossPts -
        (1 / 2 : ℝ) • ssV (Edge.mk 2 3) crossPts = (0 : Vec3) := by
      norm_num [ssW, ssU, ssV, crossPts]
      rfl
    rw [hz]
    simp [mag]
  have hu2 : mag (ssU (Edge.mk 0 1) crossPts) = 2 := by
    have h4 : Vec3.dot (ssU (Edge.mk 0 1) crossPts)
        (ssU (Edge.mk 0 1) crossPts) = 4 := by
      norm_num [ssU, crossPts]
    rw [mag, h4, show (4 : ℝ) = 2 ^ 2 by norm_num,
      Real.sqrt_sq (by norm_num : (0 : ℝ) ≤ 2)]
  have hv2 : mag (ssV (Edge.mk 2 3) crossPts) = 2 := by
    have h4 : Vec3.dot (ssV (Edge.mk 2 3) crossPts)
        (ssV (Edge.mk 2 3) crossPts) = 4 := by
      norm_num [ssV, crossPts]
    rw [mag, h4, show (4 : ℝ) = 2 ^ 2 by norm_num,
      Real.sqrt_sq (by norm_num : (0 : ℝ) ≤ 2)]
  have htol : ssTol (Edge.mk 0 1) (Edge.mk 2 3) crossPts crossPts =
      matchTol_ * 2 := by
    rw [ssTol, hu2, hv2, min_self]
  rw [segmentSegmentIntersection]
  rw [if_neg (by rw [hden]; simp [VSMALL]; norm_num)]
  rw [if_neg (by rw [hs, ht]; norm_num)]
  rw [if_neg (by rw [hdist, htol]; push_neg; nlinarith [matchTol_pos])]
  rw [hs]
  norm_num [ssU, crossPts]

/-! ### `meshOps::segmentFaceIntersection` -/

/-- Unit face normal `n` used by `meshOps::segmentFaceIntersection`
(`n /= mag(n) + VSMALL`). -/
noncomputable def sfN (faceToCheck : Face) (facePoints : ℤ → Vec3) : Vec3 :=
  Vec3.divS (faceNormal faceToCheck facePoints)
    (mag (faceNormal faceToCheck facePoints) + VSMALL)

/-- Denominator `n . (p2 - p1)` of the line-plane intersection
parameter; its vanishing means the edge is parallel to the face
plane. -/
noncomputable def sfDenominator (edgeToCheck : Edge) (faceToCheck : Face)
    (edgePoints facePoints : ℤ → Vec3) : ℝ :=
  Vec3.dot (sfN faceToCheck facePoints)
    (edgePoints edgeToCheck.endPt - edgePoints edgeToCheck.start)

/-- Embeds `meshOps::segmentFaceIntersection`: rejects an edge parallel
to the face plane, computes the intersection parameter `u`, requires it
to lie strictly inside the tolerance-shrunk range
`(tolerance, 1 - tolerance)`, and finally requires the intersection
point to lie inside the face. -/
noncomputable def segmentFaceIntersection (edgeToCheck : Edge)
    (faceToCheck : Face) (edgePoints facePoints : ℤ → Vec3) : Option Vec3 :=
  let p1 := edgePoints edgeToCheck.start
  let p2 := edgePoints edgeToCheck.endPt
  let p3 := facePoints (getE faceToCheck 0)
  let numerator := Vec3.dot (sfN faceToCheck facePoints) (p3 - p1)
  if |sfDenominator edgeToCheck faceToCheck edgePoints facePoints| < VSMALL then
    none
  else
    let u := numerator / sfDenominator edgeToCheck faceToCheck edgePoints facePoints
    let tolerance := matchTol_ * mag (p2 - p1)
    if tolerance < u ∧ u < 1 - tolerance then
      let intersectionPoint := p1 + u • (p2 - p1)
      if pointInFace faceToCheck facePoints intersectionPoint = true then
        some intersectionPoint
      else none
    else none

/-- C5: geometric degeneracy is recovered locally as "no intersection":
whenever the closest-point system of `segmentSegmentIntersection` is
near-singular (`|(u.u)(v.v) - (u.v)^2| < VSMALL`), and whenever the edge
given to `segmentFaceIntersection` is parallel to the face plane
(`|n . (p2 - p1)| < VSMALL`), the functions simply return `false`
(`none`); by construction neither embedded function has any fatal-error
outcome at all — their only outcomes are `none` ("no intersection") and
`some` (an intersection point). -/
theorem degenerate_intersection_returns_false
    (fromSegment toSegment : Edge) (fromPoints toPoints : ℤ → Vec3)
    (edgeToCheck : Edge) (faceToCheck : Face)
    (edgePoints facePoints : ℤ → Vec3)
    (hss : |ssDenom fromSegment toSegment fromPoints toPoints| < VSMALL)
    (hsf : |sfDenominator edgeToCheck faceToCheck edgePoints facePoints| < VSMALL) :
    segmentSegmentIntersection fromSegment toSegment fromPoints toPoints = none ∧
    segmentFaceIntersection edgeToCheck faceToCheck edgePoints facePoints = none := by
  constructor
  · rw [segmentSegmentIntersection, if_pos hss]
  · rw [segmentFaceIntersection]
    simp only [if_pos hsf]

/-- Points of a degenerate (parallel) segment pair: both segments run
from `(0,0,0)` to `(1,0,0)`. -/
noncomputable def parSegPts : ℤ → Vec3 :=
  fun i => if i = 0 then Vec3.mk 0 0 0 else Vec3.mk 1 0 0

/-- Points of the reference triangle `(0,0,0), (1,0,0), (0,1,0)`. -/
noncomputable def triPts : ℤ → Vec3 :=
  fun i =>
    if i = 0 then Vec3.mk 0 0 0
    else if i = 1 then Vec3.mk 1 0 0
    else if i = 2 then Vec3.mk 0 1 0
    else 0

/-- Points of an edge parallel to (and above) the plane of `triPts`'s
triangle. -/
noncomputable def liftedSegPts : ℤ → Vec3 :=
  fun i => if i = 0 then Vec3.mk 0 0 2 else Vec3.mk 1 0 2

/-- C5 witness: two coincident parallel segments make the
segment-segment system exactly singular, and an edge parallel to the
triangle `(0,0,0), (1,0,0), (0,1,0)` makes the segment-face denominator
exactly zero; both calls return "no intersection". -/
theorem degenerate_intersection_returns_false_witness :
    segmentSegmentIntersection (Edge.mk 0 1) (Edge.mk 0 1) parSegPts parSegPts = none ∧
    segmentFaceIntersection (Edge.mk 0 1) [0, 1, 2] liftedSegPts triPts = none := by
  refine degenerate_intersection_returns_false (Edge.mk 0 1) (Edge.mk 0 1)
    parSegPts parSegPts (Edge.mk 0 1) [0, 1, 2] liftedSegPts triPts ?_ ?_
  · have : ssDenom (Edge.mk 0 1) (Edge.mk 0 1) parSegPts parSegPts = 0 := by
      simp [ssDenom, ssU, ssV, parSegPts]
    rw [this]
    simpa using VSMALL_pos
  · have hn : faceNormal [0, 1, 2] triPts = Vec3.mk 0 0 (1 / 2) := by
      simp [faceNormal, polyNormal, triPts, triNormal, List.getD]
    have : sfDenominator (Edge.mk 0 1) [0, 1, 2] liftedSegPts triPts = 0 := by
      simp [sfDenominator, sfN, hn, liftedSegPts]
    rw [this]
    simpa using VSMALL_pos

/-! ### `meshOps::cellCentreAndVolume` -/

theorem Vec3.add_zero (v : Vec3) : v + 0 = v := by
  cases v
  simp

theorem Vec3.zero_add (v : Vec3) : 0 + v = v := by
  cases v
  simp

theorem Vec3.add_assoc (a b c : Vec3) : a + b + c = a + (b + c) := by
  cases a
  cases b
  cases c
  simp
  refine ⟨by ring, by ring, by ring⟩

theorem sumVec_nil : sumVec [] = 0 := rfl

theorem foldl_add_eq_add_sumVec :
    ∀ (l : List Vec3) (a : Vec3), l.foldl (· + ·) a = a + sumVec l := by
  intro l
  induction l with
  | nil => intro a; rw [List.foldl_nil, sumVec_nil, Vec3.add_zero]
  | cons x rest ih =>
    intro a
    have h1 : sumVec (x :: rest) = (0 : Vec3) + x + sumVec rest := by
      rw [sumVec, List.foldl_cons, ih]
    rw [List.foldl_cons, ih, h1, Vec3.zero_add, Vec3.add_assoc]

theorem sumVec_cons (x : Vec3) (l : List Vec3) :
    sumVec (x :: l) = x + sumVec l := by
  rw [sumVec, List.foldl_cons, foldl_add_eq_add_sumVec, Vec3.zero_add]

/-- Folding the pair accumulation of the cell loop equals componentwise
sums. -/
theorem foldl_pair_sum (g : ℤ → Vec3) (h : ℤ → ℝ) :
    ∀ (l : List ℤ) (a : Vec3) (b : ℝ),
      l.foldl (fun acc fLabel => (acc.1 + g fLabel, acc.2 + h fLabel)) (a, b) =
        (a + sumVec (l.map g), b + (l.map h).sum) := by
  intro l
  induction l with
  | nil =>
    intro a b
    rw [List.foldl_nil, List.map_nil, List.map_nil, sumVec_nil,
      List.sum_nil, Vec3.add_zero, add_zero]
  | cons x rest ih =>
    intro a b
    rw [List.foldl_cons, ih, List.map_cons, List.map_cons, sumVec_cons,
      List.sum_cons, ← Vec3.add_assoc, ← add_assoc]

/-- Estimated cell centroid of `meshOps::cellCentreAndVolume`: the
average of the cell's face centres (`cEst`). -/
noncomputable def cEst (cIndex : ℤ) (points : ℤ → Vec3) (faces : ℤ → Face)
    (cells : ℤ → Cell) : Vec3 :=
  Vec3.divS
    (sumVec ((cells cIndex).map (fun fLabel => faceCentre (faces fLabel) points)))
    ((cells cIndex).length)

/-- Face area vector as used in the cell loop: `faceNormal`, negated
exactly when the face's recorded owner is not the cell being
measured. -/
noncomputable def fAreaOriented (cIndex fLabel : ℤ) (points : ℤ → Vec3)
    (faces : ℤ → Face) (owner : ℤ → ℤ) : Vec3 :=
  if owner fLabel ≠ cIndex then -(faceNormal (faces fLabel) points)
  else faceNormal (faces fLabel) points

/-- Signed `3 *` face-pyramid volume `fArea . (fCentre - cEst)`. -/
noncomputable def pyr3Vol (cIndex fLabel : ℤ) (points : ℤ → Vec3)
    (faces : ℤ → Face) (cells : ℤ → Cell) (owner : ℤ → ℤ) : ℝ :=
  Vec3.dot (fAreaOriented cIndex fLabel points faces owner)
    (faceCentre (faces fLabel) points - cEst cIndex points faces cells)

/-- Face-pyramid centre `(3/4) fCentre + (1/4) cEst`. -/
noncomputable def pyrCentre (cIndex fLabel : ℤ) (points : ℤ → Vec3)
    (faces : ℤ → Face) (cells : ℤ → Cell) : Vec3 :=
  ((3 : ℝ) / 4) • faceCentre (faces fLabel) points +
    ((1 : ℝ) / 4) • cEst cIndex points faces cells

/-- Embeds `meshOps::cellCentreAndVolume`: accumulates the
volume-weighted face-pyramid centres and the `3 *` pyramid volumes over
the cell's faces, then divides the centre by `volume + VSMALL` and
scales the volume by `1/3`. -/
noncomputable def cellCentreAndVolume (cIndex : ℤ) (points : ℤ → Vec3)
    (faces : ℤ → Face) (cells : ℤ → Cell) (owner : ℤ → ℤ) : Vec3 × ℝ :=
  let acc := (cells cIndex).foldl
    (fun acc fLabel =>
      (acc.1 + pyr3Vol cIndex fLabel points faces cells owner •
        pyrCentre cIndex fLabel points faces cells,
       acc.2 + pyr3Vol cIndex fLabel points faces cells owner))
    (0, 0)
  (Vec3.divS acc.1 (acc.2 + VSMALL), acc.2 * ((1 : ℝ) / 3))

/-- Accumulated volume-weighted face-pyramid centre. -/
noncomputable def accCentre (cIndex : ℤ) (points : ℤ → Vec3)
    (faces : ℤ → Face) (cells : ℤ → Cell) (owner : ℤ → ℤ) : Vec3 :=
  sumVec ((cells cIndex).map (fun fLabel =>
    pyr3Vol cIndex fLabel points faces cells owner •
      pyrCentre cIndex fLabel points faces cells))

/-- Accumulated signed `3 *` face-pyramid volume. -/
noncomputable def accVolume (cIndex : ℤ) (points : ℤ → Vec3)
    (faces : ℤ → Face) (cells : ℤ → Cell) (owner : ℤ → ℤ) : ℝ :=
  ((cells cIndex).map (fun fLabel =>
    pyr3Vol cIndex fLabel points faces cells owner)).sum

/-- C4 (amended): `cellCentreAndVolume` estimates the centroid `cEst`
as the average of the cell's face centres, negates a face's area vector
exactly when the face's recorded owner is not the cell being measured,
accumulates the signed `3 *` pyramid volumes and the volume-weighted
pyramid centres (`(3/4) fCentre + (1/4) cEst` each), and returns the
centroid `accumulated centre / (accumulated volume + VSMALL)` — the
`VSMALL` guard is the one deviation from the claimed plain quotient —
and the volume `accumulated volume / 3`. -/
theorem cellCentreAndVolume_pyramid_decomposition (cIndex : ℤ)
    (points : ℤ → Vec3) (faces : ℤ → Face) (cells : ℤ → Cell)
    (owner : ℤ → ℤ) :
    cellCentreAndVolume cIndex points faces cells owner =
      (Vec3.divS (accCentre cIndex points faces cells owner)
        (accVolume cIndex points faces cells owner + VSMALL),
       accVolume cIndex points faces cells owner * ((1 : ℝ) / 3)) ∧
    (∀ fLabel : ℤ, owner fLabel = cIndex →
      fAreaOriented cIndex fLabel points faces owner =
        faceNormal (faces fLabel) points) ∧
    (∀ fLabel : ℤ, owner fLabel ≠ cIndex →
      fAreaOriented cIndex fLabel points faces owner =
        -(faceNormal (faces fLabel) points)) := by
  refine ⟨?_, ?_, ?_⟩
  · rw [cellCentreAndVolume]
    simp only [foldl_pair_sum]
    rw [accCentre, accVolume]
    rw [Vec3.zero_add, zero_add]
  · intro fLabel h
    rw [fAreaOriented, if_neg (by simp [h])]
  · intro fLabel h
    rw [fAreaOriented, if_pos h]

/-- Points of the reference tetrahedron: unit simplex corners. -/
noncomputable def tetPts : ℤ → Vec3 :=
  fun i =>
    if i = 0 then Vec3.mk 0 0 0
    else if i = 1 then Vec3.mk 1 0 0
    else if i = 2 then Vec3.mk 0 1 0
    else Vec3.mk 0 0 1

/-- Triangular faces of the reference tetrahedron, oriented outward. -/
def tetFaces : ℤ → Face :=
  fun i =>
    if i = 0 then [0, 2, 1]
    else if i = 1 then [0, 1, 3]
    else if i = 2 then [0, 3, 2]
    else [1, 2, 3]

/-- The single cell of the reference tetrahedron. -/
def tetCells : ℤ → Cell := fun _ => [0, 1, 2, 3]

/-- Every face of the reference tetrahedron is owned by cell `0`. -/
def tetOwner : ℤ → ℤ := fun _ => 0

theorem tet_faceCentre_0 : faceCentre (tetFaces 0) tetPts = Vec3.mk (1/3) (1/3) 0 := by
  simp [tetFaces, faceCentre, polyCentre, tetPts, List.getD]

theorem tet_faceCentre_1 : faceCentre (tetFaces 1) tetPts = Vec3.mk (1/3) 0 (1/3) := by
  simp [tetFaces, faceCentre, polyCentre, tetPts, List.getD]

theorem tet_faceCentre_2 : faceCentre (tetFaces 2) tetPts = Vec3.mk 0 (1/3) (1/3) := by
  simp [tetFaces, faceCentre, polyCentre, tetPts, List.getD]

theorem tet_faceCentre_3 : faceCentre (tetFaces 3) tetPts = Vec3.mk (1/3) (1/3) (1/3) := by
  simp [tetFaces, faceCentre, polyCentre, tetPts, List.getD]

theorem tet_faceNormal_0 : faceNormal (tetFaces 0) tetPts = Vec3.mk 0 0 (-(1/2)) := by
  simp [tetFaces, faceNormal, polyNormal, tetPts, List.getD, triNormal]

theorem tet_faceNormal_1 : faceNormal (tetFaces 1) tetPts = Vec3.mk 0 (-(1/2)) 0 := by
  simp [tetFaces, faceNormal, polyNormal, tetPts, List.getD, triNormal]

theorem tet_faceNormal_2 : faceNormal (tetFaces 2) tetPts = Vec3.mk (-(1/2)) 0 0 := by
  simp [tetFaces, faceNormal, polyNormal, tetPts, List.getD, triNormal]

theorem tet_faceNormal_3 : faceNormal (tetFaces 3) tetPts = Vec3.mk (1/2) (1/2) (1/2) := by
  simp [tetFaces, faceNormal, polyNormal, tetPts, List.getD, triNormal]

theorem tet_cEst : cEst 0 tetPts tetFaces tetCells = Vec3.mk (1/4) (1/4) (1/4) := by
  simp [cEst, tetCells, sumVec, tet_faceCentre_0, tet_faceCentre_1,
    tet_faceCentre_2, tet_faceCentre_3]
  norm_num

theorem tet_pyr3Vol_0 : pyr3Vol 0 0 tetPts tetFaces tetCells tetOwner = 1/8 := by
  simp [pyr3Vol, fAreaOriented, tetOwner, tet_faceNormal_0, tet_faceCentre_0, tet_cEst]
  norm_num

theorem tet_pyr3Vol_1 : pyr3Vol 0 1 tetPts tetFaces tetCells tetOwner = 1/8 := by
  simp [pyr3Vol, fAreaOriented, tetOwner, tet_faceNormal_1, tet_faceCentre_1, tet_cEst]
  norm_num

theorem tet_pyr3Vol_2 : pyr3Vol 0 2 tetPts tetFaces tetCells tetOwner = 1/8 := by
  simp [pyr3Vol, fAreaOriented, tetOwner, tet_faceNormal_2, tet_faceCentre_2, tet_cEst]
  norm_num

theorem tet_pyr3Vol_3 : pyr3Vol 0 3 tetPts tetFaces tetCells tetOwner = 1/8 := by
  simp [pyr3Vol, fAreaOriented, tetOwner, tet_faceNormal_3, tet_faceCentre_3, tet_cEst]
  norm_num

theorem tet_pyrCentre_0 : pyrCentre 0 0 tetPts tetFaces tetCells = Vec3.mk (5/16) (5/16) (1/16) := by
  simp [pyrCentre, tet_faceCentre_0, tet_cEst]
  norm_num

theorem tet_pyrCentre_1 : pyrCentre 0 1 tetPts tetFaces tetCells = Vec3.mk (5/16) (1/16) (5/16) := by
  simp [pyrCentre, tet_faceCentre_1, tet_cEst]
  norm_num

theorem tet_pyrCentre_2 : pyrCentre 0 2 tetPts tetFaces tetCells = Vec3.mk (1/16) (5/16) (5/16) := by
  simp [pyrCentre, tet_faceCentre_2, tet_cEst]
  norm_num

theorem tet_pyrCentre_3 : pyrCentre 0 3 tetPts tetFaces tetCells = Vec3.mk (5/16) (5/16) (5/16) := by
  simp [pyrCentre, tet_faceCentre_3, tet_cEst]
  norm_num

theorem tet_accCentre :
    accCentre 0 tetPts tetFaces tetCells tetOwner = Vec3.mk (1/8) (1/8) (1/8) := by
  simp [accCentre, tetCells, sumVec, tet_pyr3Vol_0, tet_pyr3Vol_1,
    tet_pyr3Vol_2, tet_pyr3Vol_3, tet_pyrCentre_0, tet_pyrCentre_1,
    tet_pyrCentre_2, tet_pyrCentre_3]
  norm_num

theorem tet_accVolume :
    accVolume 0 tetPts tetFaces tetCells tetOwner = 1/2 := by
  simp [accVolume, tetCells, tet_pyr3Vol_0, tet_pyr3Vol_1, tet_pyr3Vol_2,
    tet_pyr3Vol_3]
  norm_num

theorem tet_cellCentreAndVolume :
    cellCentreAndVolume 0 tetPts tetFaces tetCells tetOwner =
      (Vec3.divS (Vec3.mk (1/8) (1/8) (1/8)) (1/2 + VSMALL), (1/2) * ((1:ℝ)/3)) := by
  rw [cellCentreAndVolume]
  simp only [tetCells, List.foldl_cons, List.foldl_nil, tet_pyr3Vol_0,
    tet_pyr3Vol_1, tet_pyr3Vol_2, tet_pyr3Vol_3, tet_pyrCentre_0,
    tet_pyrCentre_1, tet_pyrCentre_2, tet_pyrCentre_3]
  simp [Vec3.zero_add]
  norm_num

/-- C4 counterexample: on the concrete reference tetrahedron the
returned centroid is `accumulated centre / (accumulated volume + VSMALL)`
and therefore differs (in exact arithmetic) from the claimed plain
quotient `accumulated centre / accumulated volume`. -/
theorem cellCentre_unguarded_quotient_fails :
    (cellCentreAndVolume 0 tetPts tetFaces tetCells tetOwner).1 ≠
      Vec3.divS (accCentre 0 tetPts tetFaces tetCells tetOwner)
        (accVolume 0 tetPts tetFaces tetCells tetOwner) := by
  rw [tet_cellCentreAndVolume, tet_accCentre, tet_accVolume]
  intro heq
  have hx := congrArg Vec3.x heq
  simp only [Vec3.divS_mk] at hx
  rw [VSMALL] at hx
  norm_num at hx

/-- C4 witness: instantiating the amended claim theorem on the
reference tetrahedron gives the exact volume `1/6`, and (owner matching)
an unflipped area vector. -/
theorem cellCentreAndVolume_pyramid_decomposition_witness :
    (cellCentreAndVolume 0 tetPts tetFaces tetCells tetOwner).2 = 1/6 ∧
    fAreaOriented 0 0 tetPts tetFaces tetOwner = faceNormal (tetFaces 0) tetPts := by
  constructor
  · rw [(cellCentreAndVolume_pyramid_decomposition 0 tetPts tetFaces tetCells tetOwner).1]
    rw [tet_accVolume]
    norm_num
  · exact (cellCentreAndVolume_pyramid_decomposition 0 tetPts tetFaces tetCells
      tetOwner).2.1 0 rfl

/-! ### `meshOps::insertPointLabels` -/

/-- Embeds the inner `forAll(newFace, pI)` search of
`meshOps::insertPointLabels` for one new point label `key`: at the
first position whose newly formed triangle
(`points[newFace[pI]], points[key], points[newFace[nI]]`) has a normal
with positive dot product against `refNorm`, the label is inserted via
`meshOps::insertLabel` and the loop breaks; with no such position the
face is left unchanged. -/
noncomputable def insertPointLabelsGo (refNorm : Vec3) (points : ℤ → Vec3)
    (key : ℤ) (newFace : Face) : List ℕ → Option Face
  | [] => some newFace
  | pI :: rest =>
    if 0 < Vec3.dot refNorm
        (triNormal (points (getE newFace pI)) (points key)
          (points (getE newFace (fcIdx newFace.length pI)))) then
      insertLabel key (getE newFace pI) (getE newFace (fcIdx newFace.length pI)) newFace
    else insertPointLabelsGo refNorm points key newFace rest

/-- One outer iteration of `meshOps::insertPointLabels` (one new point
label). -/
noncomputable def insertPointLabelsStep (refNorm : Vec3) (points : ℤ → Vec3)
    (key : ℤ) (newFace : Face) : Option Face :=
  insertPointLabelsGo refNorm points key newFace (List.range newFace.length)

/-- Embeds `meshOps::insertPointLabels`: iterates over the new point
labels (the `labelHashSet` is modelled as a list in iteration order),
threading the growing face; a fatal abort inside `insertLabel`
propagates. -/
noncomputable def insertPointLabels (refNorm : Vec3) (points : ℤ → Vec3)
    (pLabels : List ℤ) (modFace : Face) : Option Face :=
  pLabels.foldl
    (fun of key => of.bind (insertPointLabelsStep refNorm points key))
    (some modFace)

/-- Decomposing `List.range n` as `pre ++ pI :: post` forces `pI` to be
`pre.length` and `pre` to be an initial range. -/
theorem range_decomposition {pre post : List ℕ} {pI n : ℕ}
    (h : List.range n = pre ++ pI :: post) :
    pI = pre.length ∧ pre = List.range pre.length := by
  have hlt : pre.length < n := by
    have := congrArg List.length h
    simp at this
    omega
  have h2 : (List.range n)[pre.length]? = some pI := by
    rw [h, List.getElem?_append_right (Nat.le_refl _)]
    simp
  rw [List.getElem?_range hlt] at h2
  have hpI : pI = pre.length := by
    have := Option.some.inj h2
    omega
  refine ⟨hpI, ?_⟩
  have h3 : pre = (List.range n).take pre.length := by
    rw [h, List.take_left]
  rw [List.take_range, Nat.min_eq_left (Nat.le_of_lt hlt)] at h3
  exact h3

theorem insertPointLabelsGo_cases (refNorm : Vec3) (points : ℤ → Vec3)
    (key : ℤ) (f : Face) :
    ∀ (idxs : List ℕ) (g : Face),
      insertPointLabelsGo refNorm points key f idxs = some g →
      (g = f ∧ ∀ i ∈ idxs, ¬ 0 < Vec3.dot refNorm
        (triNormal (points (getE f i)) (points key)
          (points (getE f (fcIdx f.length i))))) ∨
      (∃ pre pI post, idxs = pre ++ pI :: post ∧
        (∀ i ∈ pre, ¬ 0 < Vec3.dot refNorm
          (triNormal (points (getE f i)) (points key)
            (points (getE f (fcIdx f.length i))))) ∧
        0 < Vec3.dot refNorm
          (triNormal (points (getE f pI)) (points key)
            (points (getE f (fcIdx f.length pI)))) ∧
        insertLabel key (getE f pI) (getE f (fcIdx f.length pI)) f = some g) := by
  intro idxs
  induction idxs with
  | nil =>
    intro g hg
    rw [insertPointLabelsGo] at hg
    exact Or.inl ⟨(Option.some.inj hg).symm, by simp⟩
  | cons pI rest ih =>
    intro g hg
    rw [insertPointLabelsGo] at hg
    by_cases hpos : 0 < Vec3.dot refNorm
        (triNormal (points (getE f pI)) (points key)
          (points (getE f (fcIdx f.length pI))))
    · rw [if_pos hpos] at hg
      exact Or.inr ⟨[], pI, rest, by simp, by simp, hpos, hg⟩
    · rw [if_neg hpos] at hg
      rcases ih g hg with ⟨hgf, hall⟩ | ⟨pre, pJ, post, heq, hpre, hhit, hins⟩
      · refine Or.inl ⟨hgf, ?_⟩
        intro i hi
        rcases List.mem_cons.mp hi with h1 | h2
        · rw [h1]; exact hpos
        · exact hall i h2
      · refine Or.inr ⟨pI :: pre, pJ, post, by rw [heq, List.cons_append], ?_, hhit, hins⟩
        intro i hi
        rcases List.mem_cons.mp hi with h1 | h2
        · rw [h1]; exact hpos
        · exact hpre i h2

/-- C6: when `labelA` and `labelB` occur cyclically adjacent (in either
order) in a list, with the first such adjacency at position `k`,
`insertLabel` returns the list with `newLabel` placed immediately after
position `k` — one element longer, all original elements kept in their
original order; with no adjacency anywhere it returns the fatal-error
outcome.  Moreover, one `insertPointLabels` iteration for a new point
label `key` either leaves the face unchanged or inserts `key` at the
first winding position whose newly formed triangle
`(points[f[pI]], points[key], points[f[nI]])` has a normal with a
positive dot product against the supplied reference normal. -/
theorem insertLabel_winding_insertion :
    (∀ (newLabel labelA labelB : ℤ) (list : List ℤ) (k : ℕ),
      k < list.length → adjHit list labelA labelB k = true →
      (∀ j, j < k → adjHit list labelA labelB j = false) →
      insertLabel newLabel labelA labelB list =
        some (list.take (k + 1) ++ newLabel :: list.drop (k + 1)) ∧
      (list.take (k + 1) ++ newLabel :: list.drop (k + 1)).length =
        list.length + 1) ∧
    (∀ (newLabel labelA labelB : ℤ) (list : List ℤ),
      (∀ j, j < list.length → adjHit list labelA labelB j = false) →
      insertLabel newLabel labelA labelB list = none) ∧
    (∀ (refNorm : Vec3) (points : ℤ → Vec3) (key : ℤ) (f g : Face),
      insertPointLabelsStep refNorm points key f = some g →
      g = f ∨ ∃ pI, pI < f.length ∧
        (∀ j, j < pI → ¬ 0 < Vec3.dot refNorm
          (triNormal (points (getE f j)) (points key)
            (points (getE f (fcIdx f.length j))))) ∧
        0 < Vec3.dot refNorm
          (triNormal (points (getE f pI)) (points key)
            (points (getE f (fcIdx f.length pI)))) ∧
        insertLabel key (getE f pI) (getE f (fcIdx f.length pI)) f = some g) := by
  refine ⟨?_, ?_, ?_⟩
  · intro newLabel labelA labelB list k hk hhit hmin
    refine ⟨insertLabel_at_first_hit hk hhit hmin, ?_⟩
    simp only [List.length_append, List.length_cons, List.length_take,
      List.length_drop]
    omega
  · intro newLabel labelA labelB list h
    exact insertLabel_no_hit h
  · intro refNorm points key f g hg
    rcases insertPointLabelsGo_cases refNorm points key f
        (List.range f.length) g hg with ⟨hgf, _⟩ | ⟨pre, pI, post, heq, hpre, hhit, hins⟩
    · exact Or.inl hgf
    · rcases range_decomposition heq with ⟨hpI, hpre_eq⟩
      refine Or.inr ⟨pI, ?_, ?_, hhit, hins⟩
      · have := congrArg List.length heq
        simp at this
        omega
      · intro j hj
        refine hpre j ?_
        rw [hpre_eq, List.mem_range]
        omega

/-- Points for the winding-insertion example: a triangle and a fourth
point `(1,1,0)` to be inserted into its winding. -/
noncomputable def pts4 : ℤ → Vec3 :=
  fun i =>
    if i = 0 then Vec3.mk 0 0 0
    else if i = 1 then Vec3.mk 1 0 0
    else if i = 2 then Vec3.mk 0 1 0
    else Vec3.mk 1 1 0

theorem insertPointLabelsStep_pts4 :
    insertPointLabelsStep (Vec3.mk 0 0 1) pts4 3 [0, 1, 2] = some [0, 1, 3, 2] := by
  rw [insertPointLabelsStep]
  have hr : List.range (([0, 1, 2] : Face).length) = [0, 1, 2] := rfl
  rw [hr, insertPointLabelsGo]
  have h0 : ¬ 0 < Vec3.dot (Vec3.mk 0 0 1)
      (triNormal (pts4 (getE [0, 1, 2] 0)) (pts4 3)
        (pts4 (getE [0, 1, 2] (fcIdx ([0, 1, 2] : Face).length 0)))) := by
    norm_num [pts4, getE, fcIdx, triNormal, List.getD]
  rw [if_neg h0, insertPointLabelsGo]
  have h1 : 0 < Vec3.dot (Vec3.mk 0 0 1)
      (triNormal (pts4 (getE [0, 1, 2] 1)) (pts4 3)
        (pts4 (getE [0, 1, 2] (fcIdx ([0, 1, 2] : Face).length 1)))) := by
    norm_num [pts4, getE, fcIdx, triNormal, List.getD]
  rw [if_pos h1]
  decide

/-- C6 witness: concrete instances obtained from the claim theorem —
inserting `9` between the adjacent labels `2, 3` of `[1, 2, 3]`,
failing fatally for the non-adjacent pair `5, 6`, and one
`insertPointLabels` iteration placing point `3` after the first winding
position with positively oriented new triangle. -/
theorem insertLabel_winding_insertion_witness :
    insertLabel 9 2 3 [1, 2, 3] = some [1, 2, 9, 3] ∧
    insertLabel 9 5 6 [1, 2, 3] = none ∧
    (([0, 1, 3, 2] : Face) = ([0, 1, 2] : Face) ∨
      ∃ pI, pI < ([0, 1, 2] : Face).length ∧
        (∀ j, j < pI → ¬ 0 < Vec3.dot (Vec3.mk 0 0 1)
          (triNormal (pts4 (getE [0, 1, 2] j)) (pts4 3)
            (pts4 (getE [0, 1, 2] (fcIdx ([0, 1, 2] : Face).length j))))) ∧
        0 < Vec3.dot (Vec3.mk 0 0 1)
          (triNormal (pts4 (getE [0, 1, 2] pI)) (pts4 3)
            (pts4 (getE [0, 1, 2] (fcIdx ([0, 1, 2] : Face).length pI)))) ∧
        insertLabel 3 (getE [0, 1, 2] pI)
          (getE [0, 1, 2] (fcIdx ([0, 1, 2] : Face).length pI)) [0, 1, 2] =
          some [0, 1, 3, 2]) := by
  refine ⟨?_, ?_, ?_⟩
  · have hmin : ∀ j, j < 1 → adjHit [1, 2, 3] 2 3 j = false := by
      intro j hj
      have hj0 : j = 0 := by omega
      subst hj0
      decide
    have h := (insertLabel_winding_insertion.1 9 2 3 [1, 2, 3] 1 (by decide)
      (by decide) hmin).1
    simpa using h
  · have hall : ∀ j, j < ([1, 2, 3] : List ℤ).length →
        adjHit [1, 2, 3] 5 6 j = false := by
      intro j hj
      simp only [List.length_cons, List.length_nil] at hj
      interval_cases j <;> decide
    exact insertLabel_winding_insertion.2.1 9 5 6 [1, 2, 3] hall
  · exact insertLabel_winding_insertion.2.2 (Vec3.mk 0 0 1) pts4 3 [0, 1, 2]
      [0, 1, 3, 2] insertPointLabelsStep_pts4

/-- Faces for the `pointInCell` boundary example: every face is the
reference triangle. -/
def triFaces : ℤ → Face := fun _ => [0, 1, 2]

/-- Every face of the `pointInCell` boundary example is owned by cell
`0`. -/
def triOwner : ℤ → ℤ := fun _ => 0

/-- C9 witness: the query point `(0,0,0)` lies exactly in the plane of
the cell's only face (zero dot product) and the cell owns the face, so
`pointInCell` rejects it, as obtained from the claim theorem. -/
theorem pointInCell_zero_dot_asymmetry_witness :
    pointInCell 0 [0] triFaces triOwner triPts (Vec3.mk 0 0 0) = false := by
  have hc : faceCentre (triFaces 0) triPts = Vec3.mk (1/3) (1/3) 0 := by
    simp [triFaces, faceCentre, polyCentre, triPts, List.getD]
  have hn : faceNormal (triFaces 0) triPts = Vec3.mk 0 0 (1/2) := by
    simp [triFaces, faceNormal, polyNormal, triPts, List.getD, triNormal]
  have hzero : Vec3.dot
      (faceCentre (triFaces 0) triPts - Vec3.mk 0 0 0)
      (faceNormal (triFaces 0) triPts) = 0 := by
    rw [hc, hn]
    simp
  exact (pointInCell_zero_dot_asymmetry 0 [0] triFaces triOwner triPts
    (Vec3.mk 0 0 0) 0 (by simp) hzero).1 rfl

end meshOps
